import Mathlib

/-!
Shallow embedding of the generation-and-safety pipeline of
backend/ai_service.py and of the manual-query guard of backend/app.py.

Python strings are modelled as List Char over ASCII text: str.upper is
modelled character by character, str.strip drops the ASCII whitespace
characters recognised by Python, and the regular expressions used by the
source (literal patterns with an optional trailing \s* group, the
whole-word pattern \b KW \b, and the extraction pattern SELECT\s+.+?;
with IGNORECASE and DOTALL) are modelled as explicit scanners with the
leftmost-match, greedy-then-lazy backtracking semantics of the re module.
-/

/-- ASCII uppercase map, modelling Python str.upper on ASCII text. -/
def upChar (c : Char) : Char := c.toUpper

/-- str.upper over a whole string. -/
def listUpper (s : List Char) : List Char := s.map upChar

/-- ASCII whitespace recognised by str.strip and by the regex class \s. -/
def isPySpace (c : Char) : Bool :=
  c == ' ' || c == Char.ofNat 9 || c == Char.ofNat 10 || c == Char.ofNat 13 ||
    c == Char.ofNat 11 || c == Char.ofNat 12

/-- Left part of str.strip. -/
def lstrip (s : List Char) : List Char := s.dropWhile isPySpace

/-- Right part of str.strip. -/
def rstrip (s : List Char) : List Char := ((s.reverse).dropWhile isPySpace).reverse

/-- Python str.strip. -/
def pyStrip (s : List Char) : List Char := rstrip (lstrip s)

/-- Case-insensitive character comparison, as under re.IGNORECASE. -/
def ciEq (a b : Char) : Bool := upChar a == upChar b

/-- Exact character comparison, for patterns compiled without IGNORECASE. -/
def beqEq (a b : Char) : Bool := a == b

/-- Literal-pattern match at the head of a string, one comparison per character. -/
def prefAt (eqf : Char → Char → Bool) : List Char → List Char → Bool
  | [], _ => true
  | _ :: _, [] => false
  | p :: ps, c :: cs => eqf p c && prefAt eqf ps cs

/-- Occurrence of the literal pattern anywhere in the string. -/
def occursL (eqf : Char → Char → Bool) (pat : List Char) : List Char → Bool
  | [] => prefAt eqf pat []
  | c :: rest => prefAt eqf pat (c :: rest) || occursL eqf pat rest

/-- One pass of re.sub with empty replacement over a literal pattern,
optionally followed by a greedy whitespace run (a trailing \s* group in the
pattern).  The Nat argument counts characters of the current match that
remain to be deleted; scanning resumes after each whole match, exactly as
re.sub does. -/
def reSubAux (eqf : Char → Char → Bool) (pat : List Char) (wsFlag : Bool) :
    List Char → Nat → List Char
  | [], _ => []
  | _ :: rest, k + 1 => reSubAux eqf pat wsFlag rest k
  | c :: rest, 0 =>
    if prefAt eqf pat (c :: rest) then
      reSubAux eqf pat wsFlag rest
        (pat.length - 1 +
          (if wsFlag then ((rest.drop (pat.length - 1)).takeWhile isPySpace).length else 0))
    else c :: reSubAux eqf pat wsFlag rest 0

/-- re.sub of a literal pattern (with optional trailing \s*) by the empty string. -/
def reSub (eqf : Char → Char → Bool) (pat : List Char) (wsFlag : Bool)
    (s : List Char) : List Char :=
  reSubAux eqf pat wsFlag s 0

/-- Markdown fence patterns removed by clean_sql_response. -/
def fenceSql : List Char := "```sql".toList

/-- Markdown fence pattern for mysql blocks. -/
def fenceMysql : List Char := "```mysql".toList

/-- Bare markdown fence pattern. -/
def fenceBare : List Char := "```".toList

/-- Apostrophe character. -/
def apos : Char := Char.ofNat 39

/-- Explanatory prefix strings removed by clean_sql_response, in source order. -/
def pfx1 : List Char := "Here".toList ++ [apos] ++ "s the query:".toList

/-- Second explanatory prefix string. -/
def pfx2 : List Char := "Here is the query:".toList

/-- Third explanatory prefix string. -/
def pfx3 : List Char := "The SQL query is:".toList

/-- Fourth explanatory prefix string. -/
def pfx4 : List Char := "SQL Query:".toList

/-- Fifth explanatory prefix string. -/
def pfx5 : List Char := "Query:".toList

/-- prefixes_to_remove of AIService.clean_sql_response, in source order. -/
def prefixes_to_remove : List (List Char) := [pfx1, pfx2, pfx3, pfx4, pfx5]

/-- The loop of clean_sql_response that re.sub-deletes each explanatory
prefix string, case-insensitively, everywhere in the text. -/
def remove_prefixes (s : List Char) : List Char :=
  prefixes_to_remove.foldl (fun acc p => reSub ciEq p false acc) s

/-- The retrieval verb. -/
def select6 : List Char := "SELECT".toList

/-- Index of the first semicolon of a string, if any. -/
def firstSemiIdx : List Char → Option Nat
  | [] => none
  | c :: rest => if c == ';' then some 0 else (firstSemiIdx rest).map (· + 1)

/-- Backtracking over the greedy whitespace group of SELECT\s+.+?; from k
whitespace characters down to one; t is the whole suffix the match starts at
and rest is t without the six verb characters.  Returns the regex match. -/
def goK (t rest : List Char) : Nat → Option (List Char)
  | 0 => none
  | k + 1 =>
    match firstSemiIdx ((rest.drop (k + 1)).drop 1) with
    | some i => some (t.take (6 + (k + 1) + (i + 1) + 1))
    | none => goK t rest k

/-- Match of SELECT\s+.+?; (IGNORECASE, DOTALL) starting at the head of t. -/
def matchSelectAt (t : List Char) : Option (List Char) :=
  if prefAt ciEq select6 t then
    goK t (t.drop 6) (((t.drop 6).takeWhile isPySpace).length)
  else none

/-- re.search for SELECT\s+.+?; (IGNORECASE, DOTALL): the leftmost match. -/
def searchSelect : List Char → Option (List Char)
  | [] => none
  | c :: rest =>
    match matchSelectAt (c :: rest) with
    | some m => some m
    | none => searchSelect rest

/-- Final step of clean_sql_response: append a semicolon to a non-empty
candidate that does not already end with one. -/
def ensureSemi (t : List Char) : List Char :=
  if t.isEmpty then t
  else if t.getLast? == some ';' then t
  else t ++ [';']

/-- AIService.clean_sql_response: strip markdown fences, delete explanatory
prefixes, strip whitespace, extract the first SELECT...; match if any, and
normalise the trailing semicolon. -/
def clean_sql_response (sql : List Char) : List Char :=
  let s1 := reSub ciEq fenceSql true sql
  let s2 := reSub ciEq fenceMysql true s1
  let s3 := reSub beqEq fenceBare true s2
  let s4 := remove_prefixes s3
  let s5 := pyStrip s4
  let s6 :=
    match searchSelect s5 with
    | some m => m
    | none => s5
  ensureSemi s6

/-- AIService.FORBIDDEN_KEYWORDS, in source order. -/
def FORBIDDEN_KEYWORDS : List (List Char) :=
  ["INSERT".toList, "UPDATE".toList, "DELETE".toList, "DROP".toList, "CREATE".toList,
   "ALTER".toList, "TRUNCATE".toList, "GRANT".toList, "REVOKE".toList, "EXECUTE".toList,
   "EXEC".toList, "MERGE".toList, "CALL".toList, "LOAD".toList, "REPLACE".toList,
   "LOCK".toList, "UNLOCK".toList]

/-- Word characters of the regex class \w over ASCII. -/
def isWordChar (c : Char) : Bool := c.isAlphanum || c == '_'

/-- Whole-word match of kw at the head of s, given the previous character. -/
def wordAt (kw : List Char) (prev : Option Char) (s : List Char) : Bool :=
  kw.isPrefixOf s &&
    (match prev with
     | none => true
     | some c => !isWordChar c) &&
    (match s.drop kw.length with
     | [] => true
     | c :: _ => !isWordChar c)

/-- Scan of all start positions for a whole-word match. -/
def containsWordFrom (kw : List Char) : Option Char → List Char → Bool
  | prev, [] => wordAt kw prev []
  | prev, c :: rest => wordAt kw prev (c :: rest) || containsWordFrom kw (some c) rest

/-- Whole-word occurrence of kw anywhere in s, modelling re.search of \b kw \b. -/
def containsWord (kw s : List Char) : Bool := containsWordFrom kw none s

/-- Sentinel prefix checked by validate_sql. -/
def errTok : List Char := "ERROR:".toList

/-- Reason for an empty candidate. -/
def emptyMsg : List Char := "Empty SQL query".toList

/-- Reason for a candidate that does not start with SELECT. -/
def onlySelectMsg : List Char := "Only SELECT queries are allowed".toList

/-- Reason prefix for a forbidden keyword. -/
def forbiddenPre : List Char := "Forbidden operation detected: ".toList

/-- Reason for more than one semicolon. -/
def multiMsg : List Char := "Multiple SQL statements not allowed".toList

/-- Reason for a comment marker. -/
def commentsMsg : List Char := "SQL comments not allowed".toList

/-- Message returned for a valid candidate. -/
def validMsg : List Char := "SQL query is valid".toList

/-- Inline comment marker. -/
def dashdash : List Char := "--".toList

/-- Block comment marker. -/
def slashStar : List Char := "/*".toList

/-- AIService.validate_sql: the strict read-only validator. -/
def validate_sql (sql : List Char) : Bool × List Char :=
  if sql.isEmpty then (false, emptyMsg)
  else if errTok.isPrefixOf (listUpper sql) then (false, sql)
  else if !(select6.isPrefixOf (pyStrip (listUpper sql))) then (false, onlySelectMsg)
  else
    match FORBIDDEN_KEYWORDS.find? (fun kw => containsWord kw (listUpper sql)) with
    | some kw => (false, forbiddenPre ++ kw)
    | none =>
      if 1 < List.count ';' sql then (false, multiMsg)
      else if occursL beqEq dashdash sql || occursL beqEq slashStar sql then
        (false, commentsMsg)
      else (true, validMsg)

/-- Outcome of one provider call, as seen by generate_sql. -/
inductive ProviderOutcome where
  | ok : List Char → ProviderOutcome
  | err : List Char → ProviderOutcome

/-- Message for a blank prompt. -/
def emptyPromptMsg : List Char := "Empty prompt provided".toList

/-- Message for a generated and validated query. -/
def successMsg : List Char := "SQL generated and validated successfully".toList

/-- AIService.generate_sql: the pipeline orchestrator, with the provider
call abstracted into its outcome. -/
def generate_sql (prompt : List Char) (provider : ProviderOutcome) :
    Bool × List Char × List Char :=
  if prompt.isEmpty || (pyStrip prompt).isEmpty then (false, [], emptyPromptMsg)
  else
    match provider with
    | ProviderOutcome.err detail => (false, [], detail)
    | ProviderOutcome.ok result =>
      if !(validate_sql (clean_sql_response result)).fst then
        (false, clean_sql_response result, (validate_sql (clean_sql_response result)).snd)
      else (true, clean_sql_response result, successMsg)

/-- dangerous_keywords of execute_manual_query in app.py, in source order. -/
def dangerous_keywords : List (List Char) :=
  ["DROP".toList, "TRUNCATE".toList, "GRANT".toList, "REVOKE".toList,
   "ALTER".toList, "CREATE".toList]

/-- Error for a missing sql field. -/
def noSqlMsg : List Char := "No SQL query provided".toList

/-- Error prefix for a dangerous keyword on the manual path. -/
def dangerousPre : List Char := "Dangerous operation detected: ".toList

/-- Error suffix for a dangerous keyword on the manual path. -/
def dangerousSuf : List Char := ". Only SELECT, INSERT, UPDATE, DELETE are allowed.".toList

/-- The validation part of execute_manual_query in app.py: some reason if the
request is rejected before execution, none if the query is passed on to
execute_manual_sql. -/
def execute_manual_query_guard (raw : List Char) : Option (List Char) :=
  if raw.isEmpty then some noSqlMsg
  else if (pyStrip raw).isEmpty then some emptyMsg
  else
    match dangerous_keywords.find? (fun kw => containsWord kw (listUpper (pyStrip raw))) with
    | some kw => some (dangerousPre ++ kw ++ dangerousSuf)
    | none =>
      if 1 < List.count ';' (pyStrip raw) then some multiMsg
      else none

/-- Shape of a canonical single SELECT statement: the verb, one space, a
body, a final semicolon. -/
def canonicalSelect (b : List Char) : List Char := select6 ++ (' ' :: b) ++ [';']

/-- The first whitespace-delimited token of sql is exactly the verb SELECT,
compared case-insensitively. -/
def firstTokenIsSelect (sql : List Char) : Bool :=
  let t := pyStrip (listUpper sql)
  select6.isPrefixOf t &&
    (match t.drop 6 with
     | [] => true
     | c :: _ => !isWordChar c)

/-- The sentinel text the prompt instructs the model to return. -/
def sentinelText : List Char := "ERROR: Cannot generate a valid SELECT query".toList


/-! Helper lemmas about the scanners and about str.strip. -/

/-- A pattern whose head fails to compare does not match at the head. -/
theorem prefAt_head_false {eqf : Char → Char → Bool} {p c : Char} (ps cs : List Char)
    (h : eqf p c = false) : prefAt eqf (p :: ps) (c :: cs) = false := by
  simp [prefAt, h]

/-- Decompose a list from its head. -/
theorem head_shape {pat : List Char} {p : Char} (hp : pat.head? = some p) :
    ∃ ps, pat = p :: ps := by
  cases pat with
  | nil => simp at hp
  | cons a t =>
    simp at hp
    exact ⟨t, by rw [hp]⟩

/-- A pattern whose head character compares with no character of s does not occur in s. -/
theorem occursL_false_of_head {eqf : Char → Char → Bool} {pat : List Char} {p : Char}
    (hp : pat.head? = some p) {s : List Char} (h : ∀ c ∈ s, eqf p c = false) :
    occursL eqf pat s = false := by
  obtain ⟨ps, rfl⟩ := head_shape hp
  induction s with
  | nil => simp [occursL, prefAt]
  | cons c rest ih =>
    have hc := h c (by simp)
    have hr : ∀ d ∈ rest, eqf p d = false := fun d hd => h d (by simp [hd])
    simp [occursL, ih hr, prefAt, hc]

/-- re.sub of a pattern that does not occur is the identity. -/
theorem reSubAux_id {eqf : Char → Char → Bool} {pat : List Char} (wsFlag : Bool)
    {s : List Char} (h : occursL eqf pat s = false) :
    reSubAux eqf pat wsFlag s 0 = s := by
  induction s with
  | nil => rfl
  | cons c rest ih =>
    simp only [occursL, Bool.or_eq_false_iff] at h
    have e : reSubAux eqf pat wsFlag (c :: rest) 0 =
        if prefAt eqf pat (c :: rest) then
          reSubAux eqf pat wsFlag rest
            (pat.length - 1 +
              (if wsFlag then ((rest.drop (pat.length - 1)).takeWhile isPySpace).length
               else 0))
        else c :: reSubAux eqf pat wsFlag rest 0 := rfl
    rw [e, if_neg (by simp [h.1]), ih h.2]

/-- Skipping a characters of a current match deletes them. -/
theorem reSubAux_skip (eqf : Char → Char → Bool) (pat : List Char) (wsFlag : Bool) :
    ∀ (a : List Char) (k : Nat) (b : List Char),
    reSubAux eqf pat wsFlag (a ++ b) (a.length + k) = reSubAux eqf pat wsFlag b k := by
  intro a
  induction a with
  | nil => intro k b; simp
  | cons x a ih =>
    intro k b
    have e : reSubAux eqf pat wsFlag (x :: (a ++ b)) ((a.length + k) + 1) =
        reSubAux eqf pat wsFlag (a ++ b) (a.length + k) := rfl
    have hl : (x :: a).length + k = (a.length + k) + 1 := by simp; omega
    rw [List.cons_append, hl, e, ih]

/-- re.sub deletes a single occurrence of the pattern sitting between two
pieces of text that contain no character comparing with the pattern head. -/
theorem reSub_cut {eqf : Char → Char → Bool} {pat : List Char} {p : Char}
    (hp : pat.head? = some p) {m u v : List Char}
    (hm : m.length = pat.length)
    (hpref : prefAt eqf pat (m ++ v) = true)
    (hu : ∀ c ∈ u, eqf p c = false) (hv : ∀ c ∈ v, eqf p c = false) :
    reSub eqf pat false (u ++ m ++ v) = u ++ v := by
  obtain ⟨ps, rfl⟩ := head_shape hp
  obtain ⟨m0, m1, rfl⟩ : ∃ m0 m1, m = m0 :: m1 := by
    cases m with
    | nil => simp at hm
    | cons m0 m1 => exact ⟨m0, m1, rfl⟩
  induction u with
  | nil =>
    simp only [List.nil_append, List.cons_append]
    rw [reSub]
    have e : reSubAux eqf (p :: ps) false (m0 :: (m1 ++ v)) 0 =
        if prefAt eqf (p :: ps) (m0 :: (m1 ++ v)) then
          reSubAux eqf (p :: ps) false (m1 ++ v) ((p :: ps).length - 1 + 0)
        else m0 :: reSubAux eqf (p :: ps) false (m1 ++ v) 0 := rfl
    have hpref2 : prefAt eqf (p :: ps) (m0 :: (m1 ++ v)) = true := by
      simpa using hpref
    rw [e, if_pos hpref2]
    have hlen : (p :: ps).length - 1 + 0 = m1.length + 0 := by
      simp only [List.length_cons] at hm ⊢
      omega
    rw [hlen, reSubAux_skip]
    exact reSubAux_id false
      (occursL_false_of_head (show (p :: ps).head? = some p from rfl) hv)
  | cons x u1 ih =>
    have hx := hu x (by simp)
    simp only [List.cons_append]
    rw [reSub]
    have e : reSubAux eqf (p :: ps) false (x :: (u1 ++ (m0 :: m1) ++ v)) 0 =
        if prefAt eqf (p :: ps) (x :: (u1 ++ (m0 :: m1) ++ v)) then
          reSubAux eqf (p :: ps) false (u1 ++ (m0 :: m1) ++ v)
            ((p :: ps).length - 1 + 0)
        else x :: reSubAux eqf (p :: ps) false (u1 ++ (m0 :: m1) ++ v) 0 := rfl
    rw [e, if_neg (by simp [prefAt, hx])]
    have hrec := ih (fun c hc => hu c (by simp [hc]))
    rw [reSub] at hrec
    rw [hrec]

/-- The right strip is a prefix of its argument. -/
theorem rstrip_pfx (s : List Char) : rstrip s <+: s := by
  rw [rstrip]
  conv_rhs => rw [← List.reverse_reverse s]
  exact List.reverse_prefix.mpr (List.dropWhile_suffix _)

/-- A nonempty prefix fixes the head of the longer list. -/
theorem pfx_head {x y : List Char} {c : Char} (hpfx : x <+: y) (hx : x.head? = some c) :
    y.head? = some c := by
  obtain ⟨t, rfl⟩ := hpfx
  cases x with
  | nil => simp at hx
  | cons a as => simp_all

/-- Transfer of the head along isPrefixOf. -/
theorem head_of_isPrefixOf {x y : List Char} {c : Char} (hp : x.isPrefixOf y = true)
    (hx : x.head? = some c) : y.head? = some c :=
  pfx_head (List.isPrefixOf_iff_prefix.mp hp) hx

/-- lstrip keeps a string whose head is not whitespace. -/
theorem lstrip_eq_self {s : List Char} {c : Char} (h1 : s.head? = some c)
    (hc : isPySpace c = false) : lstrip s = s := by
  obtain ⟨t, rfl⟩ := head_shape h1
  simp [lstrip, List.dropWhile_cons, hc]

/-- rstrip keeps a string whose last character is not whitespace. -/
theorem rstrip_eq_self {s : List Char} {c : Char} (h1 : s.getLast? = some c)
    (hc : isPySpace c = false) : rstrip s = s := by
  have h2 : s.reverse.head? = some c := by rw [List.head?_reverse]; exact h1
  obtain ⟨t, ht⟩ := head_shape h2
  rw [rstrip, ht]
  simp only [List.dropWhile_cons, hc, Bool.false_eq_true, if_false]
  rw [← ht, List.reverse_reverse]

/-- str.strip keeps a string with no surrounding whitespace. -/
theorem pyStrip_eq_self {s : List Char} {c d : Char} (h1 : s.head? = some c)
    (hc : isPySpace c = false) (h2 : s.getLast? = some d) (hd : isPySpace d = false) :
    pyStrip s = s := by
  rw [pyStrip, lstrip_eq_self h1 hc]
  exact rstrip_eq_self h2 hd

/-- str.strip of all-whitespace text is empty. -/
theorem pyStrip_eq_nil {s : List Char} (h : ∀ c ∈ s, isPySpace c = true) :
    pyStrip s = [] := by
  have hl : lstrip s = [] := by
    rw [lstrip, List.dropWhile_eq_nil_iff]
    exact h
  rw [pyStrip, hl]
  rfl

/-- Dropping whitespace does not change the number of semicolons. -/
theorem count_semi_dropWhile (s : List Char) :
    List.count ';' (s.dropWhile isPySpace) = List.count ';' s := by
  induction s with
  | nil => rfl
  | cons c rest ih =>
    by_cases h : isPySpace c = true
    · have hne : (';' : Char) ≠ c := by
        intro he
        rw [← he] at h
        exact absurd h (by decide)
      simp [List.dropWhile_cons, h, ih, List.count_cons_of_ne hne]
    · have h2 : isPySpace c = false := by simpa using h
      simp [List.dropWhile_cons, h2]

/-- str.strip does not change the number of semicolons. -/
theorem count_semi_pyStrip (s : List Char) :
    List.count ';' (pyStrip s) = List.count ';' s := by
  rw [pyStrip, rstrip, List.count_reverse, count_semi_dropWhile, List.count_reverse,
    lstrip, count_semi_dropWhile]

/-- The result of clean_sql_response is empty or ends with a semicolon. -/
theorem ensureSemi_spec (t : List Char) :
    ensureSemi t = [] ∨ (ensureSemi t).getLast? = some ';' := by
  unfold ensureSemi
  split
  · rename_i h
    left
    exact List.isEmpty_iff.mp h
  · split
    · rename_i h
      right
      simpa using h
    · right
      simp [List.getLast?_concat]

/-- find? succeeds when some member satisfies the predicate. -/
theorem find?_isSome_of_mem {p : List Char → Bool} {l : List (List Char)} {x : List Char}
    (hm : x ∈ l) (hp : p x = true) :
    ∃ y, l.find? p = some y ∧ y ∈ l ∧ p y = true := by
  cases hf : l.find? p with
  | none => exact absurd hp ((List.find?_eq_none.mp hf) x hm)
  | some y => exact ⟨y, rfl, List.mem_of_find?_eq_some hf, List.find?_some hf⟩

/-- A nonempty keyword has no whole-word occurrence in the empty string. -/
theorem containsWord_ne_nil {kw s : List Char} (hk : kw ≠ [])
    (h : containsWord kw s = true) : s ≠ [] := by
  intro he
  subst he
  obtain ⟨k, ks, rfl⟩ : ∃ k ks, kw = k :: ks := by
    cases kw with
    | nil => exact absurd rfl hk
    | cons k ks => exact ⟨k, ks, rfl⟩
  simp [containsWord, containsWordFrom, wordAt, List.isPrefixOf] at h

/-- A candidate whose stripped uppercase form starts with SELECT is nonempty. -/
theorem sql_ne_nil_of_select {sql : List Char}
    (hsel : select6.isPrefixOf (pyStrip (listUpper sql)) = true) : sql ≠ [] := by
  intro he
  subst he
  exact absurd hsel (by decide)

/-- A candidate whose stripped uppercase form starts with SELECT does not
start with the sentinel prefix. -/
theorem errTok_false_of_select {u : List Char}
    (hsel : select6.isPrefixOf (pyStrip u) = true) :
    errTok.isPrefixOf u = false := by
  cases he : errTok.isPrefixOf u with
  | false => rfl
  | true =>
    exfalso
    have hu : u.head? = some 'E' := head_of_isPrefixOf he (by decide)
    have hl : lstrip u = u := lstrip_eq_self hu (by decide)
    have hps : pyStrip u <+: u := by
      rw [pyStrip, hl]
      exact rstrip_pfx u
    have hS : (pyStrip u).head? = some 'S' := head_of_isPrefixOf hsel (by decide)
    have h2 : u.head? = some 'S' := pfx_head hps hS
    rw [hu] at h2
    exact absurd h2 (by decide)

/-- After the SELECT-prefix guard has passed, validate_sql is decided by the
keyword, semicolon and comment guards. -/
theorem validate_sql_select_branch {sql : List Char}
    (hsel : select6.isPrefixOf (pyStrip (listUpper sql)) = true) :
    validate_sql sql =
      match FORBIDDEN_KEYWORDS.find? (fun kw => containsWord kw (listUpper sql)) with
      | some kw => (false, forbiddenPre ++ kw)
      | none =>
        if 1 < List.count ';' sql then (false, multiMsg)
        else if occursL beqEq dashdash sql || occursL beqEq slashStar sql then
          (false, commentsMsg)
        else (true, validMsg) := by
  have hne := sql_ne_nil_of_select hsel
  have herr := errTok_false_of_select hsel
  unfold validate_sql
  rw [if_neg (by simp [List.isEmpty_iff, hne])]
  simp only [herr, Bool.false_eq_true, if_false, hsel, Bool.not_true]

/-- The manual guard rejects only with one of four reasons. -/
theorem manual_guard_reasons {raw r : List Char}
    (h : execute_manual_query_guard raw = some r) :
    r = noSqlMsg ∨ r = emptyMsg ∨
      (∃ kw, kw ∈ dangerous_keywords ∧ r = dangerousPre ++ kw ++ dangerousSuf) ∨
      r = multiMsg := by
  unfold execute_manual_query_guard at h
  split at h
  · left
    injection h with h
    exact h.symm
  · split at h
    · right; left
      injection h with h
      exact h.symm
    · split at h
      · rename_i kw hf
        right; right; left
        injection h with h
        exact ⟨kw, List.mem_of_find?_eq_some hf, h.symm⟩
      · split at h
        · right; right; right
          injection h with h
          exact h.symm
        · exact absurd h (by simp)

/-- reSub of a pattern that does not occur is the identity. -/
theorem reSub_id {eqf : Char → Char → Bool} {pat : List Char} (wsFlag : Bool)
    {s : List Char} (h : occursL eqf pat s = false) : reSub eqf pat wsFlag s = s :=
  reSubAux_id wsFlag h

/-- Whitespace characters compare with none of the pattern heads used by
clean_sql_response. -/
theorem pySpace_no_heads : ∀ c : Char, isPySpace c = true →
    ciEq (Char.ofNat 96) c = false ∧ beqEq (Char.ofNat 96) c = false ∧
    ciEq 'H' c = false ∧ ciEq 'T' c = false ∧ ciEq 'S' c = false ∧
    ciEq 'Q' c = false := by
  intro c hc
  simp only [isPySpace, Bool.or_eq_true, beq_iff_eq] at hc
  rcases hc with ((((rfl | rfl) | rfl) | rfl) | rfl) | rfl <;> decide

/-- clean_sql_response written as one composition. -/
theorem clean_eq (s : List Char) :
    clean_sql_response s =
      ensureSemi
        (match searchSelect (pyStrip (remove_prefixes (reSub beqEq fenceBare true
            (reSub ciEq fenceMysql true (reSub ciEq fenceSql true s))))) with
          | some m => m
          | none => pyStrip (remove_prefixes (reSub beqEq fenceBare true
              (reSub ciEq fenceMysql true (reSub ciEq fenceSql true s))))) := rfl

/-- C5 (amended): under the strict AI-path validator, every candidate whose
uppercase form begins with the sentinel prefix is rejected with the candidate
text itself passed through as the reason; the manual RESTRICTED_MUTATION path
performs no sentinel check, so there the sentinel is not rejected. -/
theorem C5_sentinel (sql : List Char)
    (h : errTok.isPrefixOf (listUpper sql) = true) :
    validate_sql sql = (false, sql) := by
  have hne : sql ≠ [] := by
    intro he
    subst he
    exact absurd h (by decide)
  unfold validate_sql
  rw [if_neg (by simp [List.isEmpty_iff, hne]), if_pos h]

/-- Witness for C5 at the sentinel text itself. -/
theorem C5_sentinel_witness :
    errTok.isPrefixOf (listUpper sentinelText) = true ∧
      validate_sql sentinelText = (false, sentinelText) :=
  ⟨by decide, C5_sentinel sentinelText (by decide)⟩

/-- Counterexample for C5 as stated: the manual policy passes the sentinel
through to execution instead of rejecting it. -/
theorem C5_sentinel_counterexample :
    errTok.isPrefixOf (listUpper sentinelText) = true ∧
      execute_manual_query_guard sentinelText = none := by decide

/-- C3 (amended): under STRICT_READ_ONLY the leading check is a
case-insensitive PREFIX check for the six characters SELECT on the stripped
candidate, not a first-token check, and it yields the operation-not-permitted
reason exactly when the prefix is absent and no earlier guard fired; the
manual RESTRICTED_MUTATION path performs no leading-verb check at all and can
only reject for a missing or blank query, a dangerous keyword, or multiple
statements. -/
theorem C3_leading_verb :
    (∀ sql : List Char, sql ≠ [] →
      errTok.isPrefixOf (listUpper sql) = false →
      select6.isPrefixOf (pyStrip (listUpper sql)) = false →
      validate_sql sql = (false, onlySelectMsg)) ∧
    (∀ sql : List Char, select6.isPrefixOf (pyStrip (listUpper sql)) = true →
      validate_sql sql ≠ (false, onlySelectMsg)) ∧
    (∀ raw r : List Char, execute_manual_query_guard raw = some r →
      r = noSqlMsg ∨ r = emptyMsg ∨
        (∃ kw, kw ∈ dangerous_keywords ∧ r = dangerousPre ++ kw ++ dangerousSuf) ∨
        r = multiMsg) := by
  refine ⟨?_, ?_, fun raw r h => manual_guard_reasons h⟩
  · intro sql hne herr hsel
    unfold validate_sql
    rw [if_neg (by simp [List.isEmpty_iff, hne]), if_neg (by simp [herr]),
      if_pos (by simp [hsel])]
  · intro sql hsel h
    rw [validate_sql_select_branch hsel] at h
    split at h
    · rename_i kw hf
      have hkmem := List.mem_of_find?_eq_some hf
      injection h with h1 h2
      exact absurd h2
        ((by decide : ∀ k ∈ FORBIDDEN_KEYWORDS, ¬(forbiddenPre ++ k = onlySelectMsg)) kw hkmem)
    · split at h
      · injection h with h1 h2
        exact absurd h2 (by decide)
      · split at h
        · injection h with h1 h2
          exact absurd h2 (by decide)
        · injection h with h1 h2
          exact absurd h1 (by decide)

/-- Witness for C3: a non-SELECT-prefixed statement gets the
operation-not-permitted reason, and a manual rejection reason is always one
of the four listed kinds. -/
theorem C3_leading_verb_witness :
    validate_sql ("DELETE FROM t;".toList) = (false, onlySelectMsg) ∧
      (multiMsg = noSqlMsg ∨ multiMsg = emptyMsg ∨
        (∃ kw, kw ∈ dangerous_keywords ∧ multiMsg = dangerousPre ++ kw ++ dangerousSuf) ∨
        multiMsg = multiMsg) :=
  ⟨C3_leading_verb.1 ("DELETE FROM t;".toList) (by decide) (by decide) (by decide),
   C3_leading_verb.2.2 (";;".toList) multiMsg (by decide)⟩

/-- Counterexample for C3 as stated: the strict validator accepts a candidate
whose first token is SELECTION, not an allowed verb, and the manual policy
passes a statement whose leading token is EXPLAIN. -/
theorem C3_leading_counterexample :
    validate_sql ("SELECTION FROM t;".toList) = (true, validMsg) ∧
      execute_manual_query_guard ("EXPLAIN SELECT 1;".toList) = none := by decide

/-- C2 (amended): every candidate containing more than one semicolon is
rejected under both policies, and the reason is the multiple-statements
message exactly when no earlier guard fires: under STRICT_READ_ONLY when the
candidate is SELECT-prefixed with no denylisted keyword, under the manual
policy when the candidate contains no dangerous keyword. -/
theorem C2_multi_statements :
    (∀ sql : List Char, 1 < List.count ';' sql → (validate_sql sql).fst = false) ∧
    (∀ raw : List Char, 1 < List.count ';' raw → execute_manual_query_guard raw ≠ none) ∧
    (∀ sql : List Char, select6.isPrefixOf (pyStrip (listUpper sql)) = true →
      (∀ kw ∈ FORBIDDEN_KEYWORDS, containsWord kw (listUpper sql) = false) →
      1 < List.count ';' sql → validate_sql sql = (false, multiMsg)) ∧
    (∀ raw : List Char,
      (∀ kw ∈ dangerous_keywords, containsWord kw (listUpper (pyStrip raw)) = false) →
      1 < List.count ';' raw → execute_manual_query_guard raw = some multiMsg) := by
  refine ⟨?_, ?_, ?_, ?_⟩
  · intro sql hc
    unfold validate_sql
    split
    · rfl
    split
    · rfl
    split
    · rfl
    split
    · rfl
    rfl
  · intro raw hc hno
    unfold execute_manual_query_guard at hno
    split at hno
    · exact absurd hno (by simp)
    split at hno
    · exact absurd hno (by simp)
    split at hno
    · exact absurd hno (by simp)
    split at hno
    · exact absurd hno (by simp)
    · rename_i hcount
      rw [count_semi_pyStrip] at hcount
      exact absurd hc hcount
  · intro sql hsel hkw hc
    have hf : FORBIDDEN_KEYWORDS.find? (fun kw => containsWord kw (listUpper sql)) = none :=
      List.find?_eq_none.mpr (fun x hx => by simp [hkw x hx])
    rw [validate_sql_select_branch hsel, hf]
    show (if 1 < List.count ';' sql then (false, multiMsg)
      else if occursL beqEq dashdash sql || occursL beqEq slashStar sql then
        (false, commentsMsg)
      else (true, validMsg)) = (false, multiMsg)
    rw [if_pos hc]
  · intro raw hkw hc
    have hr : raw ≠ [] := by
      intro he
      subst he
      simp at hc
    have hs : pyStrip raw ≠ [] := by
      intro he
      rw [← count_semi_pyStrip, he] at hc
      simp at hc
    have hf : dangerous_keywords.find?
        (fun kw => containsWord kw (listUpper (pyStrip raw))) = none :=
      List.find?_eq_none.mpr (fun x hx => by simp [hkw x hx])
    unfold execute_manual_query_guard
    rw [if_neg (by simp [List.isEmpty_iff, hr]),
      if_neg (by simp [List.isEmpty_iff, hs]), hf]
    show (if 1 < List.count ';' (pyStrip raw) then some multiMsg else none) = some multiMsg
    rw [if_pos (by rw [count_semi_pyStrip]; exact hc)]

/-- Witness for C2 at concrete multi-statement candidates. -/
theorem C2_multi_statements_witness :
    (validate_sql ("SELECT 1;;".toList)).fst = false ∧
      execute_manual_query_guard ("a;;".toList) ≠ none ∧
      validate_sql ("SELECT 1;;".toList) = (false, multiMsg) ∧
      execute_manual_query_guard ("UPDATE t SET a = 1;;".toList) = some multiMsg :=
  ⟨C2_multi_statements.1 _ (by decide),
   C2_multi_statements.2.1 _ (by decide),
   C2_multi_statements.2.2.1 _ (by decide) (by decide) (by decide),
   C2_multi_statements.2.2.2 _ (by decide) (by decide)⟩

/-- Counterexample for C2 as stated: a stacked statement containing DROP is
rejected with the forbidden-keyword reason, not the multiple-statements
reason, because the keyword guard runs first. -/
theorem C2_multi_counterexample :
    1 < List.count ';' ("SELECT * FROM employees; DROP TABLE employees;".toList) ∧
      validate_sql ("SELECT * FROM employees; DROP TABLE employees;".toList) =
        (false, forbiddenPre ++ "DROP".toList) ∧
      forbiddenPre ++ "DROP".toList ≠ multiMsg := by decide

/-- C4 (amended): under STRICT_READ_ONLY a candidate containing an inline or
block comment marker is always rejected, with the comments-not-allowed reason
exactly when no earlier guard fires; the manual RESTRICTED_MUTATION path
performs no comment check at all, so it never rejects for comments. -/
theorem C4_comment_markers :
    (∀ sql : List Char,
      (occursL beqEq dashdash sql || occursL beqEq slashStar sql) = true →
      (validate_sql sql).fst = false) ∧
    (∀ sql : List Char, select6.isPrefixOf (pyStrip (listUpper sql)) = true →
      (∀ kw ∈ FORBIDDEN_KEYWORDS, containsWord kw (listUpper sql) = false) →
      ¬(1 < List.count ';' sql) →
      (occursL beqEq dashdash sql || occursL beqEq slashStar sql) = true →
      validate_sql sql = (false, commentsMsg)) ∧
    (∀ raw r : List Char, execute_manual_query_guard raw = some r → r ≠ commentsMsg) := by
  refine ⟨?_, ?_, ?_⟩
  · intro sql hcm
    unfold validate_sql
    split
    · rfl
    split
    · rfl
    split
    · rfl
    split
    · rfl
    split
    · rfl
    rfl
  · intro sql hsel hkw hnc hcm
    have hf : FORBIDDEN_KEYWORDS.find? (fun kw => containsWord kw (listUpper sql)) = none :=
      List.find?_eq_none.mpr (fun x hx => by simp [hkw x hx])
    rw [validate_sql_select_branch hsel, hf]
    show (if 1 < List.count ';' sql then (false, multiMsg)
      else if occursL beqEq dashdash sql || occursL beqEq slashStar sql then
        (false, commentsMsg)
      else (true, validMsg)) = (false, commentsMsg)
    rw [if_neg hnc, if_pos hcm]
  · intro raw r h
    rcases manual_guard_reasons h with rfl | rfl | ⟨kw, hkm, rfl⟩ | rfl
    · decide
    · decide
    · exact (by decide :
        ∀ k ∈ dangerous_keywords, ¬(dangerousPre ++ k ++ dangerousSuf = commentsMsg)) kw hkm
    · decide

/-- Witness for C4 at concrete commented candidates. -/
theorem C4_comment_markers_witness :
    (validate_sql ("--x".toList)).fst = false ∧
      validate_sql ("SELECT 1 -- x;".toList) = (false, commentsMsg) ∧
      multiMsg ≠ commentsMsg :=
  ⟨C4_comment_markers.1 _ (by decide),
   C4_comment_markers.2.1 _ (by decide) (by decide) (by decide) (by decide),
   C4_comment_markers.2.2 (";;".toList) multiMsg (by decide)⟩

/-- Counterexample for C4 as stated: a commented candidate can be rejected
with a different reason under the strict policy, and the manual policy does
not reject comments at all. -/
theorem C4_comment_counterexample :
    occursL beqEq dashdash ("--x".toList) = true ∧
      validate_sql ("--x".toList) = (false, onlySelectMsg) ∧
      occursL beqEq dashdash ("SELECT 1 -- note;".toList) = true ∧
      execute_manual_query_guard ("SELECT 1 -- note;".toList) = none := by decide

/-- C1 (amended): a candidate containing a denylisted keyword of the active
policy as a whole word, in any letter case, is always rejected; the reason
names the keyword once the earlier guards have passed (on the strict path,
once the candidate is SELECT-prefixed; on the manual path, always); and a
keyword occurring only inside a longer word never produces a
forbidden-keyword or dangerous-keyword rejection. -/
theorem C1_denylist_wholeword :
    (∀ sql kw : List Char, kw ∈ FORBIDDEN_KEYWORDS →
      containsWord kw (listUpper sql) = true → (validate_sql sql).fst = false) ∧
    (∀ sql kw : List Char, select6.isPrefixOf (pyStrip (listUpper sql)) = true →
      FORBIDDEN_KEYWORDS.find? (fun k => containsWord k (listUpper sql)) = some kw →
      validate_sql sql = (false, forbiddenPre ++ kw)) ∧
    (∀ sql : List Char,
      (∀ kw ∈ FORBIDDEN_KEYWORDS, containsWord kw (listUpper sql) = false) →
      ∀ kw ∈ FORBIDDEN_KEYWORDS, validate_sql sql ≠ (false, forbiddenPre ++ kw)) ∧
    (∀ raw kw : List Char, kw ∈ dangerous_keywords →
      containsWord kw (listUpper (pyStrip raw)) = true →
      ∃ kw2, kw2 ∈ dangerous_keywords ∧
        execute_manual_query_guard raw = some (dangerousPre ++ kw2 ++ dangerousSuf)) ∧
    (∀ raw : List Char,
      (∀ kw ∈ dangerous_keywords, containsWord kw (listUpper (pyStrip raw)) = false) →
      ∀ kw ∈ dangerous_keywords,
        execute_manual_query_guard raw ≠ some (dangerousPre ++ kw ++ dangerousSuf)) := by
  refine ⟨?_, ?_, ?_, ?_, ?_⟩
  · intro sql kw hmem hcw
    unfold validate_sql
    split
    · rfl
    split
    · rfl
    split
    · rfl
    split
    · rfl
    · rename_i hf
      exact absurd hcw (by simpa using List.find?_eq_none.mp hf kw hmem)
  · intro sql kw hsel hf
    rw [validate_sql_select_branch hsel, hf]
  · intro sql hnone kw hkmem heq
    unfold validate_sql at heq
    split at heq
    · injection heq with h1 h2
      exact absurd h2
        ((by decide : ∀ k ∈ FORBIDDEN_KEYWORDS, ¬(emptyMsg = forbiddenPre ++ k)) kw hkmem)
    split at heq
    · rename_i herr
      injection heq with h1 h2
      subst h2
      have hcw : containsWord kw (listUpper (forbiddenPre ++ kw)) = true :=
        (by decide : ∀ k ∈ FORBIDDEN_KEYWORDS,
          containsWord k (listUpper (forbiddenPre ++ k)) = true) kw hkmem
      exact absurd hcw (by simp [hnone kw hkmem])
    split at heq
    · injection heq with h1 h2
      exact absurd h2
        ((by decide : ∀ k ∈ FORBIDDEN_KEYWORDS, ¬(onlySelectMsg = forbiddenPre ++ k)) kw hkmem)
    split at heq
    · rename_i kw2 hf
      have h1 : containsWord kw2 (listUpper sql) = true := by
        simpa using List.find?_some hf
      have h2 := List.mem_of_find?_eq_some hf
      rw [hnone kw2 h2] at h1
      exact absurd h1 (by decide)
    · split at heq
      · injection heq with h1 h2
        exact absurd h2
          ((by decide : ∀ k ∈ FORBIDDEN_KEYWORDS, ¬(multiMsg = forbiddenPre ++ k)) kw hkmem)
      split at heq
      · injection heq with h1 h2
        exact absurd h2
          ((by decide : ∀ k ∈ FORBIDDEN_KEYWORDS, ¬(commentsMsg = forbiddenPre ++ k)) kw hkmem)
      · injection heq with h1 h2
        exact absurd h1 (by decide)
  · intro raw kw hkmem hcw
    have hk_ne : kw ≠ [] := (by decide : ∀ k ∈ dangerous_keywords, k ≠ []) kw hkmem
    have hs_ne : pyStrip raw ≠ [] := by
      have hu := containsWord_ne_nil hk_ne hcw
      intro he
      rw [he] at hu
      exact hu rfl
    have hr_ne : raw ≠ [] := by
      intro he
      subst he
      exact hs_ne rfl
    obtain ⟨kw2, hf, hmem2, hp2⟩ :=
      find?_isSome_of_mem (p := fun k => containsWord k (listUpper (pyStrip raw))) hkmem hcw
    refine ⟨kw2, hmem2, ?_⟩
    unfold execute_manual_query_guard
    rw [if_neg (by simp [List.isEmpty_iff, hr_ne]),
      if_neg (by simp [List.isEmpty_iff, hs_ne]), hf]
  · intro raw hnone kw hkmem heq
    unfold execute_manual_query_guard at heq
    split at heq
    · injection heq with h
      exact absurd h.symm
        ((by decide : ∀ k ∈ dangerous_keywords,
          ¬(dangerousPre ++ k ++ dangerousSuf = noSqlMsg)) kw hkmem)
    split at heq
    · injection heq with h
      exact absurd h.symm
        ((by decide : ∀ k ∈ dangerous_keywords,
          ¬(dangerousPre ++ k ++ dangerousSuf = emptyMsg)) kw hkmem)
    split at heq
    · rename_i kw2 hf
      have h1 : containsWord kw2 (listUpper (pyStrip raw)) = true := by
        simpa using List.find?_some hf
      have h2 := List.mem_of_find?_eq_some hf
      rw [hnone kw2 h2] at h1
      exact absurd h1 (by decide)
    split at heq
    · injection heq with h
      exact absurd h.symm
        ((by decide : ∀ k ∈ dangerous_keywords,
          ¬(dangerousPre ++ k ++ dangerousSuf = multiMsg)) kw hkmem)
    · exact absurd heq (by simp)

/-- Witness for C1 at concrete candidates for each conjunct. -/
theorem C1_denylist_wholeword_witness :
    (validate_sql ("SELECT * FROM t WHERE drop = 1;".toList)).fst = false ∧
      validate_sql ("SELECT drop;".toList) = (false, forbiddenPre ++ "DROP".toList) ∧
      validate_sql ("SELECT * FROM dropped_items;".toList) ≠
        (false, forbiddenPre ++ "DROP".toList) ∧
      (∃ kw2, kw2 ∈ dangerous_keywords ∧
        execute_manual_query_guard ("DELETE FROM t WHERE drop = 1;".toList) =
          some (dangerousPre ++ kw2 ++ dangerousSuf)) ∧
      execute_manual_query_guard ("INSERT INTO created_at (a) VALUES (1);".toList) ≠
        some (dangerousPre ++ "CREATE".toList ++ dangerousSuf) :=
  ⟨C1_denylist_wholeword.1 _ ("DROP".toList) (by decide) (by decide),
   C1_denylist_wholeword.2.1 _ ("DROP".toList) (by decide) (by decide),
   C1_denylist_wholeword.2.2.1 _ (by decide) ("DROP".toList) (by decide),
   C1_denylist_wholeword.2.2.2.1 _ ("DROP".toList) (by decide) (by decide),
   C1_denylist_wholeword.2.2.2.2 _ (by decide) ("CREATE".toList) (by decide)⟩

/-- Counterexample for C1 as stated: a candidate containing the denylisted
keyword DROP as a whole word is rejected, but with the leading-verb reason,
which does not name the keyword. -/
theorem C1_denylist_counterexample :
    containsWord ("DROP".toList) (listUpper ("DROP TABLE employees;".toList)) = true ∧
      validate_sql ("DROP TABLE employees;".toList) = (false, onlySelectMsg) ∧
      occursL beqEq ("DROP".toList) onlySelectMsg = false := by decide

/-- C8 (confirmed): generate_sql rejects a blank prompt with a result that
does not depend on the provider outcome (so the adapter is observationally
never consulted); on a provider error it returns the provider detail with an
empty statement, without consulting the sanitizer or validator; on provider
success it sanitizes then validates, returning success with the cleaned
statement exactly when validation passes, and otherwise a rejection carrying
both the cleaned statement and the validation reason. -/
theorem C8_orchestrator_sequencing :
    (∀ (prompt : List Char) (p1 p2 : ProviderOutcome),
      (prompt.isEmpty || (pyStrip prompt).isEmpty) = true →
      generate_sql prompt p1 = (false, [], emptyPromptMsg) ∧
        generate_sql prompt p1 = generate_sql prompt p2) ∧
    (∀ (prompt detail : List Char),
      (prompt.isEmpty || (pyStrip prompt).isEmpty) = false →
      generate_sql prompt (ProviderOutcome.err detail) = (false, [], detail)) ∧
    (∀ (prompt raw : List Char),
      (prompt.isEmpty || (pyStrip prompt).isEmpty) = false →
      (validate_sql (clean_sql_response raw)).fst = true →
      generate_sql prompt (ProviderOutcome.ok raw) =
        (true, clean_sql_response raw, successMsg)) ∧
    (∀ (prompt raw : List Char),
      (prompt.isEmpty || (pyStrip prompt).isEmpty) = false →
      (validate_sql (clean_sql_response raw)).fst = false →
      generate_sql prompt (ProviderOutcome.ok raw) =
        (false, clean_sql_response raw, (validate_sql (clean_sql_response raw)).snd)) := by
  refine ⟨?_, ?_, ?_, ?_⟩
  · intro prompt p1 p2 hb
    constructor
    · unfold generate_sql
      rw [if_pos hb]
    · unfold generate_sql
      rw [if_pos hb, if_pos hb]
  · intro prompt detail hb
    unfold generate_sql
    rw [if_neg (by simp [hb])]
  · intro prompt raw hb hv
    unfold generate_sql
    rw [if_neg (by simp [hb])]
    simp [hv]
  · intro prompt raw hb hv
    unfold generate_sql
    rw [if_neg (by simp [hb])]
    simp [hv]

/-- Witness for C8 at concrete prompts and provider outcomes. -/
theorem C8_orchestrator_sequencing_witness :
    generate_sql ("  ".toList) (ProviderOutcome.ok ("x".toList)) =
        (false, [], emptyPromptMsg) ∧
      generate_sql ("show employees".toList) (ProviderOutcome.err ("boom".toList)) =
        (false, [], "boom".toList) ∧
      generate_sql ("show employees".toList) (ProviderOutcome.ok ("SELECT 1;".toList)) =
        (true, clean_sql_response ("SELECT 1;".toList), successMsg) ∧
      generate_sql ("show employees".toList) (ProviderOutcome.ok ("DROP TABLE t;".toList)) =
        (false, clean_sql_response ("DROP TABLE t;".toList),
          (validate_sql (clean_sql_response ("DROP TABLE t;".toList))).snd) :=
  ⟨(C8_orchestrator_sequencing.1 _ _ (ProviderOutcome.err []) (by decide)).1,
   C8_orchestrator_sequencing.2.1 _ _ (by decide),
   C8_orchestrator_sequencing.2.2.1 _ _ (by decide) (by decide),
   C8_orchestrator_sequencing.2.2.2 _ _ (by decide) (by decide)⟩

/-- C9 (confirmed): the sanitizer maps whitespace-only text, and in
particular the empty string, to the empty candidate; the trailing terminator
is appended only to non-empty candidates, so every cleaned result is empty or
ends with a semicolon; and the validator maps the empty candidate to a
rejection with the empty-query reason. -/
theorem C9_empty_pipeline :
    (∀ s : List Char, (∀ c ∈ s, isPySpace c = true) → clean_sql_response s = []) ∧
      validate_sql [] = (false, emptyMsg) ∧
      (∀ s : List Char,
        clean_sql_response s = [] ∨ (clean_sql_response s).getLast? = some ';') := by
  refine ⟨?_, by decide, ?_⟩
  · intro s hws
    have h1 : reSub ciEq fenceSql true s = s :=
      reSub_id true (occursL_false_of_head (by decide)
        (fun c hc => (pySpace_no_heads c (hws c hc)).1))
    have h2 : reSub ciEq fenceMysql true s = s :=
      reSub_id true (occursL_false_of_head (by decide)
        (fun c hc => (pySpace_no_heads c (hws c hc)).1))
    have h3 : reSub beqEq fenceBare true s = s :=
      reSub_id true (occursL_false_of_head (by decide)
        (fun c hc => (pySpace_no_heads c (hws c hc)).2.1))
    have h4 : remove_prefixes s = s := by
      unfold remove_prefixes prefixes_to_remove
      simp only [List.foldl_cons, List.foldl_nil]
      rw [reSub_id false (occursL_false_of_head (by decide)
          (fun c hc => (pySpace_no_heads c (hws c hc)).2.2.1)),
        reSub_id false (occursL_false_of_head (by decide)
          (fun c hc => (pySpace_no_heads c (hws c hc)).2.2.1)),
        reSub_id false (occursL_false_of_head (by decide)
          (fun c hc => (pySpace_no_heads c (hws c hc)).2.2.2.1)),
        reSub_id false (occursL_false_of_head (by decide)
          (fun c hc => (pySpace_no_heads c (hws c hc)).2.2.2.2.1)),
        reSub_id false (occursL_false_of_head (by decide)
          (fun c hc => (pySpace_no_heads c (hws c hc)).2.2.2.2.2))]
    rw [clean_eq, h1, h2, h3, h4, pyStrip_eq_nil hws]
    rfl
  · intro s
    rw [clean_eq]
    exact ensureSemi_spec _

/-- Witness for C9 at a whitespace-only input. -/
theorem C9_empty_pipeline_witness :
    clean_sql_response ("  ".toList) = [] ∧
      (clean_sql_response ("x".toList) = [] ∨
        (clean_sql_response ("x".toList)).getLast? = some ';') :=
  ⟨C9_empty_pipeline.1 _ (by decide), C9_empty_pipeline.2.2 _⟩

/-- C10 (confirmed): the strict validator does not require the semicolon to
be final: any candidate whose first token is SELECT, with exactly one
semicolon anywhere, no denylisted keyword as a whole word and no comment
marker, is accepted. -/
theorem C10_terminator_not_final (sql : List Char)
    (h1 : firstTokenIsSelect sql = true)
    (h2 : List.count ';' sql = 1)
    (h3 : ∀ kw ∈ FORBIDDEN_KEYWORDS, containsWord kw (listUpper sql) = false)
    (h4 : occursL beqEq dashdash sql = false)
    (h5 : occursL beqEq slashStar sql = false) :
    validate_sql sql = (true, validMsg) := by
  have hsel : select6.isPrefixOf (pyStrip (listUpper sql)) = true := by
    unfold firstTokenIsSelect at h1
    rw [Bool.and_eq_true] at h1
    exact h1.1
  have hf : FORBIDDEN_KEYWORDS.find? (fun kw => containsWord kw (listUpper sql)) = none :=
    List.find?_eq_none.mpr (fun x hx => by simp [h3 x hx])
  rw [validate_sql_select_branch hsel, hf]
  show (if 1 < List.count ';' sql then (false, multiMsg)
    else if occursL beqEq dashdash sql || occursL beqEq slashStar sql then
      (false, commentsMsg)
    else (true, validMsg)) = (true, validMsg)
  rw [if_neg (by simp [h2]), if_neg (by simp [h4, h5])]

/-- Witness for C10: a single semicolon followed by further text is accepted. -/
theorem C10_terminator_not_final_witness :
    validate_sql ("SELECT 1; tail".toList) = (true, validMsg) :=
  C10_terminator_not_final _ (by decide) (by decide) (by decide) (by decide) (by decide)

/-- C7 (amended): the explanatory-prefix removal of clean_sql_response is
case-insensitive but NOT anchored at the start of the text: an occurrence of
a prefix string anywhere inside the text, in any letter case, is deleted by
the step, shown here for the prefix Query: inside surrounding text free of
the pattern-head letters. -/
theorem C7_prefix_removal (u v : List Char)
    (hu : ∀ c ∈ u, ciEq 'H' c = false ∧ ciEq 'T' c = false ∧ ciEq 'S' c = false ∧
      ciEq 'Q' c = false)
    (hv : ∀ c ∈ v, ciEq 'H' c = false ∧ ciEq 'T' c = false ∧ ciEq 'S' c = false ∧
      ciEq 'Q' c = false) :
    remove_prefixes (u ++ "qUeRy:".toList ++ v) = u ++ v := by
  have hq : ∀ c ∈ "qUeRy:".toList, ciEq 'H' c = false ∧ ciEq 'T' c = false ∧
      ciEq 'S' c = false := by decide
  have hall : ∀ c ∈ u ++ "qUeRy:".toList ++ v,
      ciEq 'H' c = false ∧ ciEq 'T' c = false ∧ ciEq 'S' c = false := by
    intro c hc
    rcases List.mem_append.mp hc with hc2 | hcv
    · rcases List.mem_append.mp hc2 with hcu | hcq
      · exact ⟨(hu c hcu).1, (hu c hcu).2.1, (hu c hcu).2.2.1⟩
      · exact hq c hcq
    · exact ⟨(hv c hcv).1, (hv c hcv).2.1, (hv c hcv).2.2.1⟩
  unfold remove_prefixes prefixes_to_remove
  simp only [List.foldl_cons, List.foldl_nil]
  rw [reSub_id false (occursL_false_of_head (by decide) (fun c hc => (hall c hc).1)),
    reSub_id false (occursL_false_of_head (by decide) (fun c hc => (hall c hc).1)),
    reSub_id false (occursL_false_of_head (by decide) (fun c hc => (hall c hc).2.1)),
    reSub_id false (occursL_false_of_head (by decide) (fun c hc => (hall c hc).2.2))]
  exact reSub_cut (by decide) (by decide) (by rfl)
    (fun c hc => (hu c hc).2.2.2) (fun c hc => (hv c hc).2.2.2)

/-- Witness for C7: a mid-text, mixed-case occurrence is removed. -/
theorem C7_prefix_removal_witness :
    remove_prefixes ("a ".toList ++ "qUeRy:".toList ++ " b".toList) =
      "a ".toList ++ " b".toList :=
  C7_prefix_removal ("a ".toList) (" b".toList) (by decide) (by decide)

/-- Counterexample for C7 as stated: an occurrence of Query: that is NOT at
the start of the text is nevertheless removed by the step. -/
theorem C7_anchored_counterexample :
    remove_prefixes ("a Query: b".toList) = "a  b".toList ∧
      "a  b".toList ≠ ("a Query: b".toList) := by decide

/-- A pattern matches at the head of itself followed by anything, for a
reflexive comparison. -/
theorem prefAt_refl_append (eqf : Char → Char → Bool) (h : ∀ a, eqf a a = true) :
    ∀ (l t : List Char), prefAt eqf l (l ++ t) = true := by
  intro l
  induction l with
  | nil => intro t; rfl
  | cons a l ih =>
    intro t
    simp [prefAt, h a, ih t]

/-- The first semicolon after a semicolon-free block sits right after it. -/
theorem firstSemiIdx_no_semi (l t : List Char) (h : ∀ c ∈ l, c ≠ ';') :
    firstSemiIdx (l ++ ';' :: t) = some l.length := by
  induction l with
  | nil => simp [firstSemiIdx]
  | cons c l2 ih =>
    have hc : c ≠ ';' := h c (by simp)
    simp [firstSemiIdx, hc, ih (fun d hd => h d (by simp [hd]))]

/-- One backtracking step of the extraction scanner. -/
theorem goK_one (t rest : List Char) {i : Nat}
    (h : firstSemiIdx ((rest.drop 1).drop 1) = some i) :
    goK t rest 1 = some (t.take (9 + i)) := by
  have e : goK t rest 1 =
      match firstSemiIdx ((rest.drop 1).drop 1) with
      | some i => some (t.take (6 + 1 + (i + 1) + 1))
      | none => goK t rest 0 := rfl
  rw [e, h]
  show some (List.take (6 + 1 + (i + 1) + 1) t) = some (List.take (9 + i) t)
  have e2 : 6 + 1 + (i + 1) + 1 = 9 + i := by omega
  rw [e2]

/-- The extraction regex matches a canonical single SELECT statement whole. -/
theorem matchSelectAt_canonical (c : Char) (bs : List Char)
    (hc : isPySpace c = false) (hsemi : ∀ ch ∈ c :: bs, ch ≠ ';') :
    matchSelectAt (canonicalSelect (c :: bs)) = some (canonicalSelect (c :: bs)) := by
  have hy : canonicalSelect (c :: bs) = select6 ++ ((' ' :: (c :: bs)) ++ [';']) := by
    simp [canonicalSelect]
  have h6 : select6.length = 6 := by decide
  unfold matchSelectAt
  rw [if_pos ?hpref]
  case hpref =>
    rw [hy]
    exact prefAt_refl_append ciEq (fun a => by simp [ciEq]) select6 _
  have hdrop : (canonicalSelect (c :: bs)).drop 6 = ' ' :: ((c :: bs) ++ [';']) := by
    rw [hy, List.drop_left' h6]
    simp
  rw [hdrop]
  have htw : ((' ' :: ((c :: bs) ++ [';'])).takeWhile isPySpace).length = 1 := by
    simp [List.takeWhile_cons, hc]
    decide
  rw [htw]
  have hfs : firstSemiIdx (((' ' :: ((c :: bs) ++ [';'])).drop 1).drop 1) =
      some bs.length := by
    have e : ((' ' :: ((c :: bs) ++ [';'])).drop 1).drop 1 = bs ++ ';' :: [] := by simp
    rw [e]
    exact firstSemiIdx_no_semi bs [] (fun d hd => hsemi d (by simp [hd]))
  rw [goK_one _ _ hfs]
  have hl : 9 + bs.length = (canonicalSelect (c :: bs)).length := by
    simp [canonicalSelect, h6]
    omega
  rw [hl, List.take_length]

/-- The leftmost match of the search is the match found at position zero. -/
theorem searchSelect_of_match {s m : List Char} (h : matchSelectAt s = some m) :
    searchSelect s = some m := by
  cases s with
  | nil =>
    have hnone : matchSelectAt ([] : List Char) = none := rfl
    rw [hnone] at h
    exact Option.noConfusion h
  | cons a rest =>
    unfold searchSelect
    rw [h]

/-- clean_sql_response keeps a canonical single SELECT statement unchanged
when the statement contains no fence characters and no occurrence of an
explanatory prefix. -/
theorem clean_fixed (c : Char) (bs : List Char)
    (hc : isPySpace c = false)
    (hsemi : ∀ ch ∈ c :: bs, ch ≠ ';')
    (hfence : ∀ ch ∈ canonicalSelect (c :: bs), ciEq (Char.ofNat 96) ch = false)
    (hpfx : ∀ p ∈ prefixes_to_remove, occursL ciEq p (canonicalSelect (c :: bs)) = false) :
    clean_sql_response (canonicalSelect (c :: bs)) = canonicalSelect (c :: bs) := by
  have hfb : ∀ ch ∈ canonicalSelect (c :: bs), beqEq (Char.ofNat 96) ch = false := by
    intro ch hch
    cases hbe : beqEq (Char.ofNat 96) ch with
    | false => rfl
    | true =>
      exfalso
      have he : Char.ofNat 96 = ch := by simpa [beqEq] using hbe
      rw [← he] at hch
      exact absurd (hfence _ hch) (by decide)
  have h1 : reSub ciEq fenceSql true (canonicalSelect (c :: bs)) =
      canonicalSelect (c :: bs) :=
    reSub_id true (occursL_false_of_head (by decide) hfence)
  have h2 : reSub ciEq fenceMysql true (canonicalSelect (c :: bs)) =
      canonicalSelect (c :: bs) :=
    reSub_id true (occursL_false_of_head (by decide) hfence)
  have h3 : reSub beqEq fenceBare true (canonicalSelect (c :: bs)) =
      canonicalSelect (c :: bs) :=
    reSub_id true (occursL_false_of_head (by decide) hfb)
  have h4 : remove_prefixes (canonicalSelect (c :: bs)) = canonicalSelect (c :: bs) := by
    unfold remove_prefixes prefixes_to_remove
    simp only [List.foldl_cons, List.foldl_nil]
    rw [reSub_id false (hpfx pfx1 (by simp [prefixes_to_remove])),
      reSub_id false (hpfx pfx2 (by simp [prefixes_to_remove])),
      reSub_id false (hpfx pfx3 (by simp [prefixes_to_remove])),
      reSub_id false (hpfx pfx4 (by simp [prefixes_to_remove])),
      reSub_id false (hpfx pfx5 (by simp [prefixes_to_remove]))]
  have hhead : (canonicalSelect (c :: bs)).head? = some 'S' := rfl
  have hlast : (canonicalSelect (c :: bs)).getLast? = some ';' := List.getLast?_concat _
  have h5 : pyStrip (canonicalSelect (c :: bs)) = canonicalSelect (c :: bs) :=
    pyStrip_eq_self hhead (by decide) hlast (by decide)
  have h6 : searchSelect (canonicalSelect (c :: bs)) = some (canonicalSelect (c :: bs)) :=
    searchSelect_of_match (matchSelectAt_canonical c bs hc hsemi)
  have hne : canonicalSelect (c :: bs) ≠ [] := by
    intro he
    have := congrArg List.head? he
    rw [hhead] at this
    simp at this
  have h7 : ensureSemi (canonicalSelect (c :: bs)) = canonicalSelect (c :: bs) := by
    unfold ensureSemi
    rw [if_neg (by simp [List.isEmpty_iff, hne]), if_pos (by simp [hlast])]
  rw [clean_eq, h1, h2, h3, h4, h5, h6]
  exact h7

/-- C6 (amended): clean_sql_response is not idempotent in general (see the
counterexample); it is idempotent on every input whose cleaned form is a
canonical single SELECT statement - the verb, one space, a nonempty
semicolon-free body not starting with whitespace, a final semicolon - that
contains no fence character and no occurrence of an explanatory prefix. -/
theorem C6_clean_idempotent (x : List Char) (c : Char) (bs : List Char)
    (hx : clean_sql_response x = canonicalSelect (c :: bs))
    (hc : isPySpace c = false)
    (hsemi : ∀ ch ∈ c :: bs, ch ≠ ';')
    (hfence : ∀ ch ∈ canonicalSelect (c :: bs), ciEq (Char.ofNat 96) ch = false)
    (hpfx : ∀ p ∈ prefixes_to_remove, occursL ciEq p (canonicalSelect (c :: bs)) = false) :
    clean_sql_response (clean_sql_response x) = clean_sql_response x := by
  rw [hx]
  exact clean_fixed c bs hc hsemi hfence hpfx

/-- Witness for C6: a fenced well-formed statement cleans to a fixed point. -/
theorem C6_clean_idempotent_witness :
    clean_sql_response (clean_sql_response ("```sql SELECT * FROM t".toList)) =
      clean_sql_response ("```sql SELECT * FROM t".toList) :=
  C6_clean_idempotent _ '*' (" FROM t".toList) (by decide) (by decide) (by decide)
    (by decide) (by decide)

/-- Counterexample for C6 as stated: cleaning is not idempotent, because the
first pass appends a semicolon which lets the second pass extract a shorter
SELECT substring. -/
theorem C6_idempotent_counterexample :
    clean_sql_response (clean_sql_response ("foo SELECT 1".toList)) ≠
      clean_sql_response ("foo SELECT 1".toList) := by decide
